import Mathlib

/-!
Verification of the text-classification notebooks in `pytorch-text`
(`notebooks/RNN - IMDB.ipynb` and the AG News notebook): the label and
text pipelines, the batch collator (flat token buffer plus offsets), the
embedding-bag aggregation, and the per-epoch learning-rate driver.
-/

namespace PytorchText

/-- From the IMDB notebook, `LabelPipeline.__call__`:
`return 0 if label == "neg" else 1`. -/
def sentimentLabelPipeline (label : String) : Int :=
  if label = "neg" then 0 else 1

/-- Modelled from the spec: Python's builtin `int()` (external) on a
nonnegative decimal label string — the topic labels are "1".."4". It
fails (raises `ValueError`, modelled by `none`) on an empty string or a
non-digit character, otherwise reads the decimal digits. -/
def pyInt (s : String) : Option Int :=
  if s.toList = [] then none
  else (s.toList.foldl
    (fun acc c => acc.bind
      (fun n => if c.isDigit then some (n * 10 + (c.toNat - 48)) else none))
    (some (0 : Nat))).map (fun n => (n : Int))

/-- From the AG News notebook, `LabelPipeline.__call__`:
`return int(label) - 1`. -/
def topicLabelPipeline (label : String) : Option Int :=
  (pyInt label).map (fun k => k - 1)

/-- Modelled from the spec: the vocabulary (torchtext `Vocab`, an external
dependency) is "a mapping from token string to a unique non-negative
integer id" with a reserved unknown-token id; "lookups of an unseen token
must resolve to a defined unknown-token id rather than fail". -/
structure Vocab where
  stoi : List (String × Nat)
  unkIndex : Nat

/-- Modelled from the spec: `vocab[token]` returns the stored id when the
token is present and the reserved unknown id otherwise, never failing. -/
def Vocab.lookup (v : Vocab) (token : String) : Nat :=
  match v.stoi.lookup token with
  | some i => i
  | none => v.unkIndex

/-- Modelled from the spec: the tokenizer "splits raw text into word
tokens (external library capability)"; here, whitespace splitting. On an
empty string it produces no tokens, as do `basic_english` and spaCy. -/
def wordTokenizer (s : String) : List String :=
  (((s.toList).splitOn ' ').filter (fun t => t ≠ [])).map List.asString

/-- From the notebooks, `TextPipeline`: a vocabulary plus a tokenizer. -/
structure TextPipeline where
  vocab : Vocab
  tokenizer : String → List String

/-- From the notebooks, `TextPipeline.__call__`:
`return [self.vocab[token] for token in self.tokenizer(text)]`. -/
def TextPipeline.call (tp : TextPipeline) (text : String) : List Nat :=
  (tp.tokenizer text).map tp.vocab.lookup

/-- From `Collator.__call__`: the per-sample encoded texts,
`texts.append(processed_text)` over the batch. -/
def sampleTexts (tp : String → List Nat) (batch : List (String × String)) :
    List (List Nat) :=
  batch.map fun s => tp s.2

/-- `torch.cumsum` along a 1-D tensor with a running accumulator. -/
def cumsumFrom (acc : Nat) : List Nat → List Nat
  | [] => []
  | x :: xs => (acc + x) :: cumsumFrom (acc + x) xs

/-- `torch.cumsum(dim=0)` on a 1-D tensor. -/
def cumsum (l : List Nat) : List Nat := cumsumFrom 0 l

/-- From `Collator.__call__`: `offsets` starts as `[0]`, each sample
appends its token count, and the result is `torch.tensor(offsets[:-1]).cumsum(dim=0)`. -/
def collateOffsets (tp : String → List Nat) (batch : List (String × String)) :
    List Nat :=
  cumsum (((0 : Nat) :: (sampleTexts tp batch).map List.length).dropLast)

/-- From `Collator.__call__`: labels through the label pipeline, texts
through the text pipeline concatenated flat by `torch.cat` (which raises
on an empty list of tensors, modelled by `none`), and the offsets. -/
def collate (tp : String → List Nat) (lp : String → Int)
    (batch : List (String × String)) :
    Option (List Int × List Nat × List Nat) :=
  if (sampleTexts tp batch).isEmpty then none
  else some (batch.map fun s => lp s.1,
             (sampleTexts tp batch).flatten,
             collateOffsets tp batch)

/-- From the AG News notebook, the per-epoch driver after
`accu_val = evaluate(valid_dataloader, model)`:
`if total_accu is not None and total_accu > accu_val: scheduler.step()
else: total_accu = accu_val`. Returns the updated best accuracy and
whether the scheduler stepped. Accuracies are `total_correct / total_count`,
modelled as rationals. -/
def epochUpdate (total_accu : Option ℚ) (accu_val : ℚ) : Option ℚ × Bool :=
  match total_accu with
  | some best => if best > accu_val then (some best, true) else (some accu_val, false)
  | none => (some accu_val, false)

/-- Modelled from the spec: `nn.EmbeddingBag` (external, default mean
mode) sums the embedding rows of a span componentwise. `d` is the
embedding width. -/
def vecSum (d : Nat) (vs : List (List ℚ)) : List ℚ :=
  vs.foldr (fun v acc => List.zipWith (fun a b => a + b) v acc)
    (List.replicate d 0)

/-- Modelled from the spec: the embedding-bag aggregation "average[s] the
embedding vectors of its tokens ... producing one fixed-width vector per
sample": the componentwise sum divided by the token count. -/
def embeddingBagMean (d : Nat) (emb : Nat → List ℚ) (ids : List Nat) :
    List ℚ :=
  (vecSum d (ids.map emb)).map (fun x => x / (ids.length : ℚ))

/-- A small concrete IMDB-style vocabulary used for concrete scenarios. -/
def imdbMiniVocab : Vocab :=
  { stoi := [("bad", 2), ("film", 3), ("great", 4), ("a", 5)], unkIndex := 0 }

/-- The concrete sentiment text pipeline: `TextPipeline(vocab, tokenizer)`. -/
def imdbMiniTextPipeline : TextPipeline :=
  { vocab := imdbMiniVocab, tokenizer := wordTokenizer }

end PytorchText

namespace PytorchText

/-- C9: calling `Collator.__call__` on an empty batch fails
(`torch.cat` on the empty list of per-sample tensors raises an uncaught
`RuntimeError`), returning no encoded batch and no partial result. -/
theorem collate_empty_batch_fails (tp : String → List Nat) (lp : String → Int) :
    collate tp lp [] = none := rfl

/-- C10: the sentiment `LabelPipeline` returns 0 exactly on the string
"neg" and returns 1 for every other label value, so malformed labels are
silently mapped to class 1. -/
theorem sentiment_label_cases (label : String) :
    (sentimentLabelPipeline label = 0 ↔ label = "neg") ∧
    (label ≠ "neg" → sentimentLabelPipeline label = 1) := by
  constructor
  · constructor
    · intro h
      by_contra hne
      simp [sentimentLabelPipeline, hne] at h
    · intro h
      simp [sentimentLabelPipeline, h]
  · intro h
    simp [sentimentLabelPipeline, h]

/-- Witness for C10 at the concrete labels "neg" and "oops". -/
theorem sentiment_label_cases_witness :
    sentimentLabelPipeline "oops" = 1 ∧ sentimentLabelPipeline "neg" = 0 :=
  ⟨(sentiment_label_cases "oops").2 (by decide),
   (sentiment_label_cases "neg").1.mpr rfl⟩

/-- C5: for a topic (AG News) label string parsing to an integer `k` with
`1 ≤ k ≤ numClasses`, the topic `LabelPipeline` returns `k - 1`, which
lies in `[0, numClasses)`. -/
theorem topic_label_in_range (label : String) (k numClasses : Int)
    (hparse : pyInt label = some k) (h1 : 1 ≤ k) (h2 : k ≤ numClasses) :
    topicLabelPipeline label = some (k - 1) ∧
    0 ≤ k - 1 ∧ k - 1 < numClasses := by
  refine ⟨?_, by omega, by omega⟩
  simp [topicLabelPipeline, hparse]

/-- Witness for C5 at the concrete label "3" with 4 classes. -/
theorem topic_label_in_range_witness :
    topicLabelPipeline "3" = some 2 ∧ 0 ≤ (2 : Int) ∧ (2 : Int) < 4 :=
  topic_label_in_range "3" 3 4 (by decide) (by decide) (by decide)

/-- Tokens all distinct from `token` make `List.lookup` miss. -/
theorem lookup_eq_none_of_forall_ne {l : List (String × Nat)} {token : String}
    (h : ∀ p ∈ l, p.1 ≠ token) : l.lookup token = none := by
  induction l with
  | nil => rfl
  | cons p rest ih =>
    have hp : p.1 ≠ token := h p (List.mem_cons_self p rest)
    have hbeq : (token == p.1) = false := by
      simp [hp.symm]
    simp only [List.lookup, hbeq]
    exact ih (fun q hq => h q (List.mem_cons_of_mem p hq))

/-- C4: looking up a token absent from the vocabulary through the
pipeline's vocabulary returns the designated unknown-token id; the lookup
is a total function and never fails. -/
theorem vocab_lookup_unknown (v : Vocab) (token : String)
    (h : ∀ p ∈ v.stoi, p.1 ≠ token) :
    v.lookup token = v.unkIndex := by
  unfold Vocab.lookup
  rw [lookup_eq_none_of_forall_ne h]

/-- Witness for C4: the token "zebra" is absent from the concrete
vocabulary, and its lookup yields the unknown id 0. -/
theorem vocab_lookup_unknown_witness :
    imdbMiniVocab.lookup "zebra" = imdbMiniVocab.unkIndex :=
  vocab_lookup_unknown imdbMiniVocab "zebra" (by decide)

/-- C2: collating the 2-sample batch [("neg","bad film"), ("pos","great
film")] with the sentiment collator and the whitespace tokenizer (each
text splits into two tokens) yields labels [0, 1], a flattened id tensor
[2, 3, 4, 3] of length 4, and offsets [0, 2]. -/
theorem collate_two_sample_scenario :
    collate imdbMiniTextPipeline.call sentimentLabelPipeline
      [("neg", "bad film"), ("pos", "great film")]
      = some ([0, 1], [2, 3, 4, 3], [0, 2]) ∧
    ([2, 3, 4, 3] : List Nat).length = 4 := by
  exact ⟨by decide, rfl⟩

/-- `cumsumFrom` preserves length. -/
theorem cumsumFrom_length (acc : Nat) (l : List Nat) :
    (cumsumFrom acc l).length = l.length := by
  induction l generalizing acc with
  | nil => rfl
  | cons x xs ih => simp [cumsumFrom, ih]

/-- Entry `i` of a running cumulative sum. -/
theorem cumsumFrom_getD (acc : Nat) (l : List Nat) (i : Nat)
    (hi : i < l.length) :
    (cumsumFrom acc l).getD i 0 = acc + (l.take (i + 1)).sum := by
  induction l generalizing acc i with
  | nil => simp at hi
  | cons x xs ih =>
    cases i with
    | zero => simp [cumsumFrom]
    | succ j =>
      have hj : j < xs.length := by simpa using hi
      rw [cumsumFrom, List.getD_cons_succ, ih (acc + x) j hj,
        List.take_succ_cons, List.sum_cons]
      omega

/-- The collator produces one offset per sample. -/
theorem collateOffsets_length (tp : String → List Nat)
    (batch : List (String × String)) :
    (collateOffsets tp batch).length = batch.length := by
  unfold collateOffsets cumsum
  rw [cumsumFrom_length]
  simp [sampleTexts]

/-- Offset `i` is the total token count of the samples before sample `i`. -/
theorem collateOffsets_getD (tp : String → List Nat)
    (batch : List (String × String)) (i : Nat) (hi : i < batch.length) :
    (collateOffsets tp batch).getD i 0
      = (((sampleTexts tp batch).map List.length).take i).sum := by
  unfold collateOffsets cumsum
  have hlen : ((sampleTexts tp batch).map List.length).length = batch.length := by
    simp [sampleTexts]
  set l := (sampleTexts tp batch).map List.length with hldef
  have hi' : i < ((0 :: l).dropLast).length := by
    simp only [List.length_dropLast, List.length_cons]
    omega
  rw [cumsumFrom_getD 0 _ i hi']
  have htake : ((0 :: l).dropLast).take (i + 1) = (0 :: l).take (i + 1) := by
    rw [List.dropLast_eq_take, List.take_take]
    congr 1
    simp only [List.length_cons]
    omega
  rw [htake, List.take_succ_cons, List.sum_cons]
  omega

/-- For a non-empty batch the collator succeeds and returns exactly the
mapped labels, the flattened per-sample encodings, and the offsets. -/
theorem collate_eq_some (tp : String → List Nat) (lp : String → Int)
    (batch : List (String × String)) (h : batch ≠ []) :
    collate tp lp batch
      = some (batch.map fun s => lp s.1,
              (sampleTexts tp batch).flatten,
              collateOffsets tp batch) := by
  unfold collate
  have : (sampleTexts tp batch).isEmpty = false := by
    simp [sampleTexts, h]
  rw [this]
  simp

/-- Splitting off the last element of a non-empty sum. -/
theorem sum_take_pred_add_getD {l : List Nat} (h : l ≠ []) :
    (l.take (l.length - 1)).sum + l.getD (l.length - 1) 0 = l.sum := by
  have hpos : 0 < l.length := List.length_pos.mpr h
  have hlt : l.length - 1 < l.length := by omega
  have hdrop : l.drop (l.length - 1) = [l.getD (l.length - 1) 0] := by
    rw [List.drop_eq_getElem_cons hlt]
    have hsucc : l.length - 1 + 1 = l.length := by omega
    rw [hsucc, List.drop_length, List.getD_eq_getElem _ _ hlt]
  have hsplit := List.take_append_drop (l.length - 1) l
  calc (l.take (l.length - 1)).sum + l.getD (l.length - 1) 0
      = (l.take (l.length - 1)).sum + (l.drop (l.length - 1)).sum := by
        rw [hdrop]; simp
    _ = l.sum := by rw [← List.sum_append, hsplit]

/-- The last offset plus the last sample's token count is the flattened
buffer's length. -/
theorem last_offset_add_last_len (tp : String → List Nat)
    (batch : List (String × String)) (h : batch ≠ []) :
    (collateOffsets tp batch).getD (batch.length - 1) 0
        + (tp (batch.getLast h).2).length
      = (sampleTexts tp batch).flatten.length := by
  have hpos : 0 < batch.length := List.length_pos.mpr h
  have hlt : batch.length - 1 < batch.length := by omega
  set l := (sampleTexts tp batch).map List.length with hldef
  have hlen : l.length = batch.length := by simp [hldef, sampleTexts]
  have hlne : l ≠ [] := by
    intro hcon
    rw [hcon] at hlen
    simp at hlen
    omega
  have hltl : l.length - 1 < l.length := by omega
  have hgetl : l.getD (l.length - 1) 0 = (tp (batch.getLast h).2).length := by
    rw [List.getD_eq_getElem _ _ hltl, List.getLast_eq_getElem]
    simp only [hldef, sampleTexts, List.length_map, List.getElem_map]
  rw [collateOffsets_getD tp batch _ hlt, List.length_flatten, ← hldef, ← hgetl,
    ← hlen]
  exact sum_take_pred_add_getD hlne

/-- C1: for a non-empty batch, `Collator.__call__` returns offsets with
one entry per sample, and the final offset plus the last sample's token
count equals the length of the flattened texts tensor. -/
theorem collate_offsets_count_and_end (tp : String → List Nat)
    (lp : String → Int) (batch : List (String × String)) (h : batch ≠ []) :
    collate tp lp batch
      = some (batch.map fun s => lp s.1,
              (sampleTexts tp batch).flatten,
              collateOffsets tp batch) ∧
    (collateOffsets tp batch).length = batch.length ∧
    (collateOffsets tp batch).getD (batch.length - 1) 0
        + (tp (batch.getLast h).2).length
      = (sampleTexts tp batch).flatten.length :=
  ⟨collate_eq_some tp lp batch h, collateOffsets_length tp batch,
   last_offset_add_last_len tp batch h⟩

/-- Witness for C1 on the concrete 2-sample IMDB batch. -/
theorem collate_offsets_count_and_end_witness :
    collate imdbMiniTextPipeline.call sentimentLabelPipeline
        [("neg", "bad film"), ("pos", "great film")]
      = some ([("neg", "bad film"), ("pos", "great film")].map
                fun s => sentimentLabelPipeline s.1,
              (sampleTexts imdbMiniTextPipeline.call
                [("neg", "bad film"), ("pos", "great film")]).flatten,
              collateOffsets imdbMiniTextPipeline.call
                [("neg", "bad film"), ("pos", "great film")]) ∧
    (collateOffsets imdbMiniTextPipeline.call
        [("neg", "bad film"), ("pos", "great film")]).length
      = ([("neg", "bad film"), ("pos", "great film")] :
          List (String × String)).length ∧
    (collateOffsets imdbMiniTextPipeline.call
        [("neg", "bad film"), ("pos", "great film")]).getD
        (([("neg", "bad film"), ("pos", "great film")] :
          List (String × String)).length - 1) 0
        + (imdbMiniTextPipeline.call
            (([("neg", "bad film"), ("pos", "great film")] :
              List (String × String)).getLast (by decide)).2).length
      = (sampleTexts imdbMiniTextPipeline.call
          [("neg", "bad film"), ("pos", "great film")]).flatten.length :=
  collate_offsets_count_and_end imdbMiniTextPipeline.call
    sentimentLabelPipeline [("neg", "bad film"), ("pos", "great film")]
    (by decide)

/-- A non-empty list of positive naturals has positive sum. -/
theorem nat_sum_pos {l : List Nat} (hne : l ≠ []) (hpos : ∀ x ∈ l, 0 < x) :
    0 < l.sum := by
  cases l with
  | nil => exact absurd rfl hne
  | cons x xs =>
    have hx := hpos x (List.mem_cons_self x xs)
    simp only [List.sum_cons]
    omega

/-- Prefix sums of a list of positive naturals are strictly increasing. -/
theorem sum_take_lt_sum_take {l : List Nat} (hpos : ∀ x ∈ l, 0 < x)
    {i j : Nat} (hij : i < j) (hj : j ≤ l.length) :
    (l.take i).sum < (l.take j).sum := by
  have hsplit : l.take j = l.take i ++ (l.drop i).take (j - i) := by
    have hji : i + (j - i) = j := by omega
    have htj := List.take_add l i (j - i)
    rw [hji] at htj
    exact htj
  rw [hsplit, List.sum_append]
  have hne : (l.drop i).take (j - i) ≠ [] := by
    intro hcon
    have hlen : ((l.drop i).take (j - i)).length = 0 := by rw [hcon]; rfl
    simp only [List.length_take, List.length_drop] at hlen
    omega
  have hposmid : ∀ x ∈ (l.drop i).take (j - i), 0 < x := fun x hx =>
    hpos x (List.mem_of_mem_drop (List.mem_of_mem_take hx))
  have := nat_sum_pos hne hposmid
  omega

/-- When every sample has at least one token, the offsets are strictly
increasing. -/
theorem collateOffsets_pairwise_lt (tp : String → List Nat)
    (batch : List (String × String)) (hpos : ∀ s ∈ batch, tp s.2 ≠ []) :
    List.Pairwise (fun a b => a < b) (collateOffsets tp batch) := by
  rw [List.pairwise_iff_getElem]
  intro i j hi hj hij
  have hlen := collateOffsets_length tp batch
  have hib : i < batch.length := by omega
  have hjb : j < batch.length := by omega
  have hgi := collateOffsets_getD tp batch i hib
  have hgj := collateOffsets_getD tp batch j hjb
  rw [List.getD_eq_getElem _ _ hi] at hgi
  rw [List.getD_eq_getElem _ _ hj] at hgj
  rw [hgi, hgj]
  have hmlen : ((sampleTexts tp batch).map List.length).length = batch.length := by
    simp [sampleTexts]
  refine sum_take_lt_sum_take ?_ hij (by omega)
  intro x hx
  rcases List.mem_map.mp hx with ⟨t, ht, rfl⟩
  rcases List.mem_map.mp ht with ⟨s, hs, rfl⟩
  exact List.length_pos.mpr (hpos s hs)

/-- C3 counterexample: a successfully collated 2-sample batch whose first
sample yields no tokens (the empty text) has offsets [0, 0], which is not
strictly increasing. -/
theorem collate_offsets_not_strict_counterexample :
    collate imdbMiniTextPipeline.call sentimentLabelPipeline
        [("neg", ""), ("pos", "a")]
      = some ([0, 1], [5], [0, 0]) ∧
    ¬ List.Pairwise (fun a b => a < b) ([0, 0] : List Nat) :=
  ⟨by decide, by decide⟩

/-- C3 amended: for a collated batch in which every sample's encoded
token sequence is non-empty, the offsets are strictly increasing, and the
last sample's span runs from the last offset to the end of the flattened
sequence. -/
theorem collate_offsets_strict_increasing (tp : String → List Nat)
    (lp : String → Int) (batch : List (String × String)) (h : batch ≠ [])
    (hpos : ∀ s ∈ batch, tp s.2 ≠ []) :
    collate tp lp batch
      = some (batch.map fun s => lp s.1,
              (sampleTexts tp batch).flatten,
              collateOffsets tp batch) ∧
    List.Pairwise (fun a b => a < b) (collateOffsets tp batch) ∧
    (collateOffsets tp batch).getD (batch.length - 1) 0
        + (tp (batch.getLast h).2).length
      = (sampleTexts tp batch).flatten.length :=
  ⟨collate_eq_some tp lp batch h, collateOffsets_pairwise_lt tp batch hpos,
   last_offset_add_last_len tp batch h⟩

/-- Witness for the amended C3 on the concrete 2-sample IMDB batch. -/
theorem collate_offsets_strict_increasing_witness :
    collate imdbMiniTextPipeline.call sentimentLabelPipeline
        [("neg", "bad film"), ("pos", "great film")]
      = some ([("neg", "bad film"), ("pos", "great film")].map
                fun s => sentimentLabelPipeline s.1,
              (sampleTexts imdbMiniTextPipeline.call
                [("neg", "bad film"), ("pos", "great film")]).flatten,
              collateOffsets imdbMiniTextPipeline.call
                [("neg", "bad film"), ("pos", "great film")]) ∧
    List.Pairwise (fun a b => a < b)
      (collateOffsets imdbMiniTextPipeline.call
        [("neg", "bad film"), ("pos", "great film")]) ∧
    (collateOffsets imdbMiniTextPipeline.call
        [("neg", "bad film"), ("pos", "great film")]).getD
        (([("neg", "bad film"), ("pos", "great film")] :
          List (String × String)).length - 1) 0
        + (imdbMiniTextPipeline.call
            (([("neg", "bad film"), ("pos", "great film")] :
              List (String × String)).getLast (by decide)).2).length
      = (sampleTexts imdbMiniTextPipeline.call
          [("neg", "bad film"), ("pos", "great film")]).flatten.length :=
  collate_offsets_strict_increasing imdbMiniTextPipeline.call
    sentimentLabelPipeline [("neg", "bad film"), ("pos", "great film")]
    (by decide) (by decide)

/-- Dropping the tokens of the first `i` samples from the flattened
buffer leaves the flattened remaining samples. -/
theorem flatten_drop_sum_take {α : Type} (ts : List (List α)) (i : Nat) :
    ts.flatten.drop (((ts.map List.length).take i).sum)
      = (ts.drop i).flatten := by
  induction ts generalizing i with
  | nil => simp
  | cons t rest ih =>
    cases i with
    | zero => simp
    | succ j =>
      simp only [List.map_cons, List.take_succ_cons, List.sum_cons,
        List.flatten_cons, List.drop_append, List.drop_succ_cons, ih j]

/-- The span of the flattened buffer starting at sample `i`'s offset and
running for its token count is exactly sample `i`'s token list. -/
theorem flatten_take_drop_span {α : Type} (ts : List (List α)) (i : Nat)
    (hi : i < ts.length) :
    (ts.flatten.drop (((ts.map List.length).take i).sum)).take
        (ts.getD i []).length
      = ts.getD i [] := by
  rw [flatten_drop_sum_take]
  have hd : ts.drop i = ts.getD i [] :: ts.drop (i + 1) := by
    rw [List.drop_eq_getElem_cons hi, List.getD_eq_getElem _ _ hi]
  rw [hd, List.flatten_cons, List.take_left]

/-- C6: the flattened texts tensor is exactly the concatenation, in batch
order, of each sample's encoded token-id sequence — no truncation, no
padding — and the span starting at each sample's offset with its token
count recovers that sample's ids exactly. -/
theorem collate_concat_and_span_recovery (tp : String → List Nat)
    (lp : String → Int) (batch : List (String × String)) (h : batch ≠ []) :
    collate tp lp batch
      = some (batch.map fun s => lp s.1,
              (batch.map fun s => tp s.2).flatten,
              collateOffsets tp batch) ∧
    ∀ i, i < batch.length →
      ((sampleTexts tp batch).flatten.drop
          ((collateOffsets tp batch).getD i 0)).take
          (tp ((batch.getD i ("", "")).2)).length
        = tp ((batch.getD i ("", "")).2) := by
  refine ⟨collate_eq_some tp lp batch h, ?_⟩
  intro i hi
  have hlen : (sampleTexts tp batch).length = batch.length := by
    simp [sampleTexts]
  have hi' : i < (sampleTexts tp batch).length := by omega
  have hsm : (sampleTexts tp batch).getD i []
      = tp ((batch.getD i ("", "")).2) := by
    rw [List.getD_eq_getElem _ _ hi', List.getD_eq_getElem _ _ hi]
    simp [sampleTexts]
  rw [collateOffsets_getD tp batch i hi, ← hsm]
  exact flatten_take_drop_span (sampleTexts tp batch) i hi'

/-- Witness for C6 on a concrete 1-sample batch, with the span property
instantiated at sample 0. -/
theorem collate_concat_and_span_recovery_witness :
    collate imdbMiniTextPipeline.call sentimentLabelPipeline [("neg", "a")]
      = some ([("neg", "a")].map fun s => sentimentLabelPipeline s.1,
              ([("neg", "a")].map
                fun s => imdbMiniTextPipeline.call s.2).flatten,
              collateOffsets imdbMiniTextPipeline.call [("neg", "a")]) ∧
    ((sampleTexts imdbMiniTextPipeline.call [("neg", "a")]).flatten.drop
        ((collateOffsets imdbMiniTextPipeline.call [("neg", "a")]).getD 0 0)).take
        (imdbMiniTextPipeline.call
          ((([("neg", "a")] : List (String × String)).getD 0 ("", "")).2)).length
      = imdbMiniTextPipeline.call
          ((([("neg", "a")] : List (String × String)).getD 0 ("", "")).2) :=
  ⟨(collate_concat_and_span_recovery imdbMiniTextPipeline.call
      sentimentLabelPipeline [("neg", "a")] (by decide)).1,
   (collate_concat_and_span_recovery imdbMiniTextPipeline.call
      sentimentLabelPipeline [("neg", "a")] (by decide)).2 0 (by decide)⟩

/-- C7 counterexample: when the validation accuracy ties the best seen so
far it fails to improve over it, yet the epoch driver does not step the
scheduler (the condition `total_accu > accu_val` is strict); it takes the
recording branch instead. -/
theorem epoch_update_tie_counterexample :
    ((1 : ℚ) / 2 ≤ 1 / 2) ∧
    epochUpdate (some ((1 : ℚ) / 2)) ((1 : ℚ) / 2) = (some ((1 : ℚ) / 2), false) := by
  refine ⟨le_refl _, ?_⟩
  simp [epochUpdate]

/-- C7 amended: the scheduler steps exactly when a previous best exists
and the validation accuracy is strictly below it; in every other case
(first epoch, tie, or improvement) no step occurs and the accuracy is
recorded as the new best. -/
theorem epoch_update_spec (t : Option ℚ) (a : ℚ) :
    ((epochUpdate t a).2 = true ↔ ∃ b, t = some b ∧ a < b) ∧
    ((epochUpdate t a).2 = false ↔ (epochUpdate t a).1 = some a) := by
  cases t with
  | none => simp [epochUpdate]
  | some b =>
    by_cases hb : a < b
    · simp [epochUpdate, hb, hb.ne']
    · simp [epochUpdate, hb]

/-- Witness for the amended C7 at concrete accuracies: best 3/4, new
validation accuracy 1/2 is strictly worse, so the scheduler steps. -/
theorem epoch_update_spec_witness :
    (epochUpdate (some ((3 : ℚ) / 4)) ((1 : ℚ) / 2)).2 = true :=
  (epoch_update_spec (some ((3 : ℚ) / 4)) ((1 : ℚ) / 2)).1.mpr
    ⟨(3 : ℚ) / 4, rfl, by norm_num⟩

/-- Adding the zero vector componentwise changes nothing. -/
theorem zipWith_add_replicate_zero (v : List ℚ) :
    List.zipWith (fun a b => a + b) v (List.replicate v.length 0) = v := by
  induction v with
  | nil => rfl
  | cons x xs ih =>
    simp only [List.length_cons, List.replicate, List.zipWith, ih, add_zero]

/-- C8: encoding a sample of exactly one token and applying the
embedding-bag mean aggregation over its span yields exactly that token's
raw embedding vector — the mean of a one-element span is the element. -/
theorem embedding_bag_single_token (d : Nat) (emb : Nat → List ℚ)
    (tp : TextPipeline) (text : String) (t : Nat)
    (henc : tp.call text = [t]) (hd : (emb t).length = d) :
    embeddingBagMean d emb (tp.call text) = emb t := by
  rw [henc]
  unfold embeddingBagMean vecSum
  simp only [List.map_cons, List.map_nil, List.foldr_cons, List.foldr_nil]
  rw [← hd, zipWith_add_replicate_zero]
  simp

/-- Witness for C8: the one-token text "a" encodes to [5], and its
embedding-bag mean is the raw embedding row of token 5. -/
theorem embedding_bag_single_token_witness :
    embeddingBagMean 2 (fun _ => [(1 : ℚ) / 2, 3])
        (imdbMiniTextPipeline.call "a") = [(1 : ℚ) / 2, 3] :=
  embedding_bag_single_token 2 (fun _ => [(1 : ℚ) / 2, 3])
    imdbMiniTextPipeline "a" 5 (by decide) rfl

end PytorchText
